import Mathlib

/-!
Verification of the OSv virtio-net data plane (drivers/virtio-net.cc,
drivers/virtio-net.hh) and its supporting lock-free SPSC ring
(include/lockfree/ring.hh), as a shallow embedding.

Machine integers are modelled as Nat with explicit reduction modulo
2^w at the points where the C code's fixed-width arithmetic matters
(the 32-bit ring counters, the u16 net-header fields).  Byte buffers
are functions Nat -> Nat; multi-byte loads through ntohs are modelled
big-endian.  Fallible paths return Option.
-/

namespace OsvNet

/-! ## Constants

Constants of the wire protocol and of the FreeBSD network headers the
driver includes (bsd/sys/net/ethernet.h, netinet/ip.h, netinet/udp.h,
netinet/tcp.h, sys/mbuf.h).  Those headers are external collaborators
of the NIC data plane; the values below are the standard FreeBSD ones
the driver compiles against.
-/

/-- ETHERTYPE_IP from ethernet.h. -/
def ETHERTYPE_IP : Nat := 0x0800

/-- ETHERTYPE_VLAN from ethernet.h. -/
def ETHERTYPE_VLAN : Nat := 0x8100

/-- sizeof(struct ether_header): 6 dst + 6 src + 2 type.  Equals
ETHER_HDR_LEN. -/
def sizeof_ether_header : Nat := 14

/-- sizeof(struct ether_vlan_header): 6 + 6 + 2 encap type + 2 tag + 2
inner type. -/
def sizeof_ether_vlan_header : Nat := 18

/-- sizeof(struct ip), the fixed IPv4 header. -/
def sizeof_ip : Nat := 20

/-- sizeof(struct udphdr). -/
def sizeof_udphdr : Nat := 8

/-- sizeof(struct tcphdr). -/
def sizeof_tcphdr : Nat := 20

/-- offsetof(struct udphdr, uh_sum): sport 2 + dport 2 + len 2. -/
def offsetof_uh_sum : Nat := 6

/-- offsetof(struct tcphdr, th_sum): sport 2 + dport 2 + seq 4 + ack 4 +
off/flags 2 + win 2. -/
def offsetof_th_sum : Nat := 16

/-- CSUM_TCP from sys/mbuf.h (checksum offload requested for TCP). -/
def CSUM_TCP : Nat := 0x0002

/-- CSUM_UDP from sys/mbuf.h. -/
def CSUM_UDP : Nat := 0x0004

/-- CSUM_TSO from sys/mbuf.h (TCP segmentation offload requested). -/
def CSUM_TSO : Nat := 0x0020

/-- CSUM_DATA_VALID from sys/mbuf.h (csum_data field is valid). -/
def CSUM_DATA_VALID : Nat := 0x0400

/-- CSUM_PSEUDO_HDR from sys/mbuf.h (csum_data has pseudo-header
checksum folded in). -/
def CSUM_PSEUDO_HDR : Nat := 0x0800

/-- TH_CWR from netinet/tcp.h, the congestion-window-reduced TCP flag. -/
def TH_CWR : Nat := 0x80

/-- IPPROTO_TCP. -/
def IPPROTO_TCP : Nat := 6

/-- net_hdr::VIRTIO_NET_HDR_F_NEEDS_CSUM (virtio-net.hh). -/
def VIRTIO_NET_HDR_F_NEEDS_CSUM : Nat := 1

/-- net_hdr::VIRTIO_NET_HDR_F_DATA_VALID (virtio-net.hh). -/
def VIRTIO_NET_HDR_F_DATA_VALID : Nat := 2

/-- net_hdr::VIRTIO_NET_HDR_GSO_TCPV4 (virtio-net.hh). -/
def VIRTIO_NET_HDR_GSO_TCPV4 : Nat := 1

/-- net_hdr::VIRTIO_NET_HDR_GSO_ECN (virtio-net.hh). -/
def VIRTIO_NET_HDR_GSO_ECN : Nat := 0x80

/-- net::VIRTIO_NET_CSUM_OFFLOAD = CSUM_TCP | CSUM_UDP (virtio-net.hh). -/
def VIRTIO_NET_CSUM_OFFLOAD : Nat := Nat.lor CSUM_TCP CSUM_UDP

/-- EINVAL, the only errno txq::xmit can return to its caller. -/
def EINVAL : Nat := 22

/-- ENOBUFS, returned by try_xmit_one_locked when the available ring has
no room; txq::xmit translates it into a per-CPU enqueue.  Only its being
nonzero and different from EINVAL matters. -/
def ENOBUFS : Nat := 105

/-! ## C struct layout of the per-packet net header

net::net_hdr is declared in virtio-net.hh as u8 flags, u8 gso_type,
u16 hdr_len, u16 gso_size, u16 csum_start, u16 csum_offset, with no
packing attribute; net::net_hdr_mrg_rxbuf appends a u16 num_buffers.
The layout calculator below applies the standard Itanium/SysV rules
(each field at the next multiple of its alignment; the struct size is
padded to a multiple of the largest member alignment), which is what
the driver's sizeof sees on x86-64.
-/

/-- Round `off` up to the next multiple of the alignment `a`. -/
def alignUp (off a : Nat) : Nat := ((off + a - 1) / a) * a

/-- A C struct member: its alignment and its size, in bytes. -/
structure CField where
  align : Nat
  bytes : Nat

/-- C struct layout: (sizeof, alignof) of a member list. -/
def structLayout (fs : List CField) : Nat × Nat :=
  let p := fs.foldl (fun (p : Nat × Nat) f =>
    (alignUp p.1 f.align + f.bytes, max p.2 f.align)) (0, 1)
  (alignUp p.1 p.2, p.2)

/-- Members of net::net_hdr: u8 flags, u8 gso_type, u16 hdr_len,
u16 gso_size, u16 csum_start, u16 csum_offset. -/
def net_hdr_fields : List CField :=
  [⟨1, 1⟩, ⟨1, 1⟩, ⟨2, 2⟩, ⟨2, 2⟩, ⟨2, 2⟩, ⟨2, 2⟩]

/-- sizeof(net::net_hdr). -/
def sizeof_net_hdr : Nat := (structLayout net_hdr_fields).1

/-- Members of net::net_hdr_mrg_rxbuf: a nested net_hdr followed by
u16 num_buffers. -/
def net_hdr_mrg_rxbuf_fields : List CField :=
  [⟨(structLayout net_hdr_fields).2, sizeof_net_hdr⟩, ⟨2, 2⟩]

/-- sizeof(net::net_hdr_mrg_rxbuf). -/
def sizeof_net_hdr_mrg_rxbuf : Nat := (structLayout net_hdr_mrg_rxbuf_fields).1

/-- The header-size selection of the net::net constructor:
_hdr_size = (_mergeable_bufs) ? sizeof(net_hdr_mrg_rxbuf) : sizeof(net_hdr). -/
def hdr_size (mergeable_bufs : Bool) : Nat :=
  if mergeable_bufs then sizeof_net_hdr_mrg_rxbuf else sizeof_net_hdr

/-! ## The per-packet net header and the receive-side mbuf view -/

/-- net::net_hdr as seen by the driver.  Fields are u8/u16; writes in the
embedded code reduce where the C assignment truncates. -/
structure NetHdr where
  flags : Nat
  gso_type : Nat
  hdr_len : Nat
  gso_size : Nat
  csum_start : Nat
  csum_offset : Nat
deriving DecidableEq

/-- The zero-filled header net_req's constructor produces
(memset(&mhdr, 0, sizeof(mhdr))). -/
def zeroNetHdr : NetHdr := ⟨0, 0, 0, 0, 0, 0⟩

/-- The slice of an mbuf bad_rx_csum consumes and mutates: the length of
the leading contiguous segment, its bytes (already past the virtio
header, which receiver() strips with m_adj before the checksum check),
and the two pkthdr checksum fields the function may set. -/
structure Mbuf where
  mhLen : Nat
  data : Nat → Nat
  csumFlags : Nat
  csumData : Nat

/-- ntohs of the 16-bit field at byte offset `off`: network byte order
is big-endian. -/
def readBe16 (d : Nat → Nat) (off : Nat) : Nat := d off * 256 + d (off + 1)

/-- The Ethernet type bad_rx_csum ends up with: ether_header.ether_type
(offset 12), replaced by ether_vlan_header.evl_proto (offset 16) when the
outer type is the VLAN tag protocol. -/
def eth_type_of (m : Mbuf) : Nat :=
  let t := readBe16 m.data 12
  if t = ETHERTYPE_VLAN then readBe16 m.data 16 else t

/-- The marking both fallthrough arms of bad_rx_csum's switch perform:
csum_flags |= CSUM_DATA_VALID | CSUM_PSEUDO_HDR; csum_data = 0xFFFF. -/
def mark_csum_ok (m : Mbuf) : Mbuf :=
  { m with
    csumFlags := Nat.lor m.csumFlags (Nat.lor CSUM_DATA_VALID CSUM_PSEUDO_HDR),
    csumData := 0xFFFF }

/-- net::bad_rx_csum.  Returns (result, mutated mbuf); true means the
checksum is to be treated as bad.  The csum_offset switch has the UDP
case fall through to the TCP case after the zero-checksum early return,
exactly as in the source. -/
def bad_rx_csum (m : Mbuf) (hdr : NetHdr) : Bool × Mbuf :=
  let csum_len := hdr.csum_start + hdr.csum_offset
  if csum_len < sizeof_ether_header + sizeof_ip then (true, m)
  else if m.mhLen < csum_len then (true, m)
  else if eth_type_of m ≠ ETHERTYPE_IP then (true, m)
  else if hdr.csum_offset = offsetof_uh_sum then
    (if m.mhLen < hdr.csum_start + sizeof_udphdr then (true, m)
     else if readBe16 m.data (hdr.csum_start + offsetof_uh_sum) = 0 then (false, m)
     else (false, mark_csum_ok m))
  else if hdr.csum_offset = offsetof_th_sum then (false, mark_csum_ok m)
  else (true, m)

/-- The checksum-validation step of net::receiver for one reassembled
packet: csum_flags is cleared when the packet header is set up, then,
when RXCSUM is enabled and the host set NEEDS_CSUM, bad_rx_csum decides
between the rx_csum and rx_csum_err counters.  Returns (the mbuf as
handed to if_input, rx_csum increment, rx_csum_err increment). -/
def receiver_csum_step (rxcsum : Bool) (m : Mbuf) (hdr : NetHdr) :
    Mbuf × Nat × Nat :=
  let m0 : Mbuf := { m with csumFlags := 0 }
  if rxcsum ∧ Nat.land hdr.flags VIRTIO_NET_HDR_F_NEEDS_CSUM ≠ 0 then
    let r := bad_rx_csum m0 hdr
    if r.1 then (r.2, 0, 1) else (r.2, 1, 0)
  else (m0, 0, 0)

/-- The condition under which bad_rx_csum answers false (checksum ok);
used to state the claims about it.  See bad_rx_csum_false_iff. -/
def structPass (m : Mbuf) (hdr : NetHdr) : Prop :=
  sizeof_ether_header + sizeof_ip ≤ hdr.csum_start + hdr.csum_offset ∧
  hdr.csum_start + hdr.csum_offset ≤ m.mhLen ∧
  eth_type_of m = ETHERTYPE_IP ∧
  ((hdr.csum_offset = offsetof_uh_sum ∧
    hdr.csum_start + sizeof_udphdr ≤ m.mhLen) ∨
   hdr.csum_offset = offsetof_th_sum)

instance (m : Mbuf) (hdr : NetHdr) : Decidable (structPass m hdr) := by
  unfold structPass; infer_instance

/-! ## The transmit path: offload, try_xmit_one_locked, xmit

txq::offload parses the frame's Ethernet (optionally VLAN), IPv4 and,
for TSO, TCP headers, pulling fragments up as needed, and fills the
virtio net header.  The packet is modelled by the parse results the
function consumes rather than raw bytes (it reads them through the
FreeBSD header structs): the leading contiguous length, the chain's
total length (the bound up to which m_pullup can succeed; allocation is
assumed to succeed), the pkthdr offload fields, and the header fields.
-/

/-- A transmit mbuf as txq::offload consumes it. -/
structure TxPkt where
  mhLen : Nat
  totLen : Nat
  csum_flags : Nat
  csum_data : Nat
  tso_segsz : Nat
  eth_type : Nat
  vlan_inner_type : Nat
  ip_p : Nat
  ip_hl : Nat
  th_off : Nat
  th_flags : Nat
deriving DecidableEq

/-- m_pullup(m, len): makes the first len bytes contiguous.  Fails (and
frees the chain) when the chain is shorter than len; allocation is
assumed to succeed. -/
def m_pullup (m : TxPkt) (len : Nat) : Option TxPkt :=
  if len ≤ m.totLen then some { m with mhLen := max m.mhLen len } else none

/-- The TSO tail of txq::offload, entered when CSUM_TSO is set in the
packet's csum_flags: bail out (leaving the TSO fields of the header
clear) unless the IP protocol is TCP, pull the TCP header up, fill
gso_type / hdr_len / gso_size, and enforce the ECN policy on TH_CWR. -/
def offload_tso (tso_ecn : Bool) (m3 : TxPkt) (hdr1 : NetHdr)
    (csum_start gso_type : Nat) : Option (TxPkt × NetHdr) :=
  if m3.ip_p ≠ IPPROTO_TCP then some (m3, hdr1)
  else
    match (if m3.mhLen < csum_start + sizeof_tcphdr
           then m_pullup m3 (csum_start + sizeof_tcphdr)
           else some m3) with
    | none => none
    | some m4 =>
      let hdr2 :=
        { hdr1 with
          gso_type := gso_type,
          hdr_len := (csum_start + m4.th_off * 4) % 65536,
          gso_size := m4.tso_segsz % 65536 }
      if Nat.land m4.th_flags TH_CWR ≠ 0 then
        if tso_ecn = false then none
        else some (m4, { hdr2 with
          flags := Nat.lor hdr2.flags VIRTIO_NET_HDR_GSO_ECN })
      else some (m4, hdr2)

/-- The IPv4 case of txq::offload's Ethernet-type switch: pull the IP
header up, compute csum_start from ip_hl, populate the checksum-offload
fields when VIRTIO_NET_CSUM_OFFLOAD bits are set, then run the TSO tail
when CSUM_TSO is set. -/
def offload_ipv4 (tso_ecn : Bool) (m2 : TxPkt) (hdr0 : NetHdr)
    (ip_offset : Nat) : Option (TxPkt × NetHdr) :=
  match (if m2.mhLen < ip_offset + sizeof_ip
         then m_pullup m2 (ip_offset + sizeof_ip) else some m2) with
  | none => none
  | some m3 =>
    let csum_start := ip_offset + m3.ip_hl * 4
    let hdr1 :=
      if Nat.land m3.csum_flags VIRTIO_NET_CSUM_OFFLOAD ≠ 0 then
        { hdr0 with
          flags := Nat.lor hdr0.flags VIRTIO_NET_HDR_F_NEEDS_CSUM,
          csum_start := csum_start % 65536,
          csum_offset := m3.csum_data % 65536 }
      else hdr0
    if Nat.land m3.csum_flags CSUM_TSO ≠ 0 then
      offload_tso tso_ecn m3 hdr1 csum_start VIRTIO_NET_HDR_GSO_TCPV4
    else some (m3, hdr1)

/-- txq::offload.  Returns none when the packet was dropped and freed
(header pull-up failure, or TSO with CWR while the ECN feature is off),
otherwise the (possibly pulled-up) packet and the filled net header.
tso_ecn is the driver's _tso_ecn feature flag.  The u16 stores into the
net header reduce mod 2^16 as the C assignments do.  The switch's
default case returns the packet with the header untouched, before the
checksum-offload block. -/
def offload (tso_ecn : Bool) (m0 : TxPkt) (hdr0 : NetHdr) :
    Option (TxPkt × NetHdr) :=
  match (if m0.mhLen < sizeof_ether_header
         then m_pullup m0 sizeof_ether_header else some m0) with
  | none => none
  | some m1 =>
    match (if m1.eth_type = ETHERTYPE_VLAN then
             (match (if m1.mhLen < sizeof_ether_vlan_header
                     then m_pullup m1 sizeof_ether_vlan_header
                     else some m1) with
              | none => none
              | some m => some (m, sizeof_ether_vlan_header, m.vlan_inner_type))
           else some (m1, sizeof_ether_header, m1.eth_type)) with
    | none => none
    | some (m2, ip_offset, ety) =>
      if ety = ETHERTYPE_IP then offload_ipv4 tso_ecn m2 hdr0 ip_offset
      else some (m2, hdr0)

/-- txq::try_xmit_one_locked, reduced to what its caller observes: the
return code, the tx_err increment, and the offloaded packet with the
net header placed in the request (net_req zero-fills it).  addBufOk
stands for the final vqueue add_buf succeeding (after the optional gc
when the available ring lacked room but completions were pending). -/
def try_xmit_one_locked (tso_ecn addBufOk : Bool) (m : TxPkt) :
    Nat × Nat × Option (TxPkt × NetHdr) :=
  if m.csum_flags ≠ 0 then
    match offload tso_ecn m zeroNetHdr with
    | none => (EINVAL, 1, none)
    | some r => (if addBufOk then 0 else ENOBUFS, 0, some r)
  else (if addBufOk then 0 else ENOBUFS, 0, some (m, zeroNetHdr))

/-- Environment of one txq::xmit call: what the concurrent state decides
at the call's decision points. -/
structure XmitEnv where
  pending : Bool
  lockOk : Bool
  tso_ecn : Bool
  addBufOk : Bool
  pendingAfter : Bool
deriving DecidableEq

/-- What one txq::xmit call did, as its caller and the statistics see
it. -/
structure XmitOut where
  ret : Nat
  pushedCpu : Bool
  freed : Bool
  txErrInc : Nat
  txPacketsInc : Nat
  kicked : Bool
  wokeDisp : Bool
deriving DecidableEq

/-- net::txq::xmit.  pending is has_pending() at entry, lockOk the
try_lock_running() outcome, pendingAfter has_pending() after
unlock_running(); the rest parametrises try_xmit_one_locked. -/
def txq_xmit (env : XmitEnv) (m : TxPkt) : XmitOut :=
  if env.pending || !env.lockOk then
    { ret := 0, pushedCpu := true, freed := false, txErrInc := 0,
      txPacketsInc := 0, kicked := false, wokeDisp := false }
  else
    let t := try_xmit_one_locked env.tso_ecn env.addBufOk m
    let rc := t.1
    if rc = 0 then
      { ret := 0, pushedCpu := false, freed := false, txErrInc := t.2.1,
        txPacketsInc := 1, kicked := true, wokeDisp := env.pendingAfter }
    else if rc = EINVAL then
      { ret := EINVAL, pushedCpu := false, freed := true, txErrInc := t.2.1,
        txPacketsInc := 0, kicked := false, wokeDisp := env.pendingAfter }
    else
      { ret := 0, pushedCpu := true, freed := false, txErrInc := t.2.1,
        txPacketsInc := 0, kicked := false, wokeDisp := env.pendingAfter }

/-! ## The dispatcher drain loop and its doorbell batching

net::txq::dispatch, after waking, sends one packet through the merger
(the top-of-loop mg.pop), then drains the merger, checking pkts_to_kick
against kick_thresh = vqueue->size() after each packet, and finally
kicks whatever remains.  Each packet goes through xmit_one_locked,
which increments pkts_to_kick and, when the hardware ring is full,
kicks the pending packets itself before blocking for completions.  The
model emits the trace of enqueue and doorbell events; each packet
carries the environment's choice of whether the ring was full for it.
-/

/-- An observable event of the dispatcher: a packet enqueued to the
hardware ring, or a doorbell (a kick that found pkts_to_kick nonzero). -/
inductive TxEv where
  | enq : TxEv
  | kick : TxEv
deriving DecidableEq

/-- txq::kick(): doorbell only when pkts_to_kick is nonzero, then reset
it.  Returns (events, new pkts_to_kick). -/
def kick_model (k : Nat) : List TxEv × Nat :=
  if k ≠ 0 then ([TxEv.kick], 0) else ([], k)

/-- txq::xmit_one_locked inside the dispatcher: when the ring is full it
first kicks the pending packets, then (after completions) enqueues; it
always increments pkts_to_kick. -/
def xmit_one_locked_model (ringFull : Bool) (k : Nat) : List TxEv × Nat :=
  if ringFull then
    let r := kick_model k
    (r.1 ++ [TxEv.enq], r.2 + 1)
  else ([TxEv.enq], k + 1)

/-- The inner drain: while (mg.pop(xmit_it)) { if (pkts_to_kick >=
kick_thresh) kick(); } followed by the trailing kick(). -/
def drainLoop (thresh : Nat) : List Bool → Nat → List TxEv
  | [], k => (kick_model k).1
  | rf :: ps, k =>
    let s := xmit_one_locked_model rf k
    if thresh ≤ s.2 then
      let t := kick_model s.2
      s.1 ++ t.1 ++ drainLoop thresh ps t.2
    else
      s.1 ++ drainLoop thresh ps s.2

/-- One round of the dispatcher loop after clear_pending(): the
top-of-loop mg.pop sends `first` (when the merger was non-empty) with no
threshold check after it, then the inner drain runs. -/
def dispatchRound (thresh : Nat) (first : Option Bool) (ps : List Bool)
    (k : Nat) : List TxEv :=
  match first with
  | some rf =>
    let s := xmit_one_locked_model rf k
    s.1 ++ drainLoop thresh ps s.2
  | none => drainLoop thresh ps k

/-- Checks that every maximal kick-free run of a trace holds at most
`t` enqueues, starting with `k` enqueues already in the current run. -/
def runsBounded (t : Nat) : List TxEv → Nat → Bool
  | [], _ => true
  | TxEv.enq :: es, k => decide (k + 1 ≤ t) && runsBounded t es (k + 1)
  | TxEv.kick :: es, _ => runsBounded t es 0

/-- The number of enqueues in the current (trailing) kick-free run of a
trace, starting from `k` already in the run. -/
def runCount : List TxEv → Nat → Nat
  | [], k => k
  | TxEv.enq :: es, k => runCount es (k + 1)
  | TxEv.kick :: es, _ => runCount es 0

/-! ## The bounded SPSC ring (lockfree/ring.hh, ring_spsc)

Two free-running 32-bit counters: _begin (consumer) and _end
(producer); the occupancy is their unsigned difference, the slot index
the counter masked by MaxSizeMask = MaxSize - 1, which for the
power-of-two MaxSize the constructor asserts equals reduction mod
MaxSize.  Counters are modelled as Nat kept below 2^32, with the
unsigned wrap explicit.
-/

/-- The modulus of the ring's unsigned counters. -/
def U32 : Nat := 4294967296

/-- Unsigned 32-bit subtraction of counters already below 2^32. -/
def usub (a b : Nat) : Nat := (a + U32 - b) % U32

/-- ring_spsc: the storage array (a total function over slot indices)
and the two counters.  The template's MaxSize is a field here. -/
structure RingSpsc (T : Type) where
  maxSize : Nat
  ring : Nat → T
  bg : Nat
  en : Nat

namespace RingSpsc

variable {T : Type}

/-- ring_spsc::size(): end - begin in u32 arithmetic. -/
def size (r : RingSpsc T) : Nat := usub r.en r.bg

/-- ring_spsc::push: fail if size() >= MaxSize, else store at
end & MaxSizeMask and bump end. -/
def push (r : RingSpsc T) (x : T) : Bool × RingSpsc T :=
  if r.maxSize ≤ size r then (false, r)
  else (true,
    { r with
      ring := fun i => if i = r.en % r.maxSize then x else r.ring i,
      en := (r.en + 1) % U32 })

/-- ring_spsc::pop: fail if empty, else read begin & MaxSizeMask and
bump begin. -/
def pop (r : RingSpsc T) : Option T × RingSpsc T :=
  if size r = 0 then (none, r)
  else (some (r.ring (r.bg % r.maxSize)),
    { r with bg := (r.bg + 1) % U32 })

/-- The abstract FIFO contents, oldest first: the pending slots read
in consumer order. -/
def contents (r : RingSpsc T) : List T :=
  (List.range (size r)).map (fun i => r.ring ((r.bg + i) % r.maxSize))

/-- The ring's well-formedness: MaxSize is a nonzero power of two no
larger than the template allows (the source instantiates 4096), both
counters are 32-bit values, and the occupancy never exceeds the
capacity (the single producer only pushes into a non-full ring). -/
def Inv (r : RingSpsc T) : Prop :=
  0 < r.maxSize ∧ r.maxSize ∣ U32 ∧ r.maxSize < U32 ∧
  r.bg < U32 ∧ r.en < U32 ∧ size r ≤ r.maxSize

end RingSpsc

/-! ## Theorems -/

/-- C3 counterexample: without merged-RX-buffers the driver's header
size is sizeof(net_hdr) = 10 bytes, not the 12 the claim states, and
with merged-RX-buffers it is 12, not 16. -/
theorem hdr_size_cex :
    hdr_size false = 10 ∧ hdr_size false ≠ 12 ∧
    hdr_size true = 12 ∧ hdr_size true ≠ 16 := by decide

/-- C3 (amended): after feature negotiation the per-packet net-header
size is exactly 10 bytes when merged-RX-buffers was not negotiated and
exactly 12 bytes when it was. -/
theorem hdr_size_spec : ∀ b, hdr_size b = if b then 12 else 10 := by decide

/-- C1: txq::xmit returns 0 or EINVAL, and EINVAL exactly when the fast
path was taken (no pending work, RUNNING acquired) and offload
preparation rejected the packet; when the packet is staged (pending
work or RUNNING busy) or when the hardware ring lacks room, the call
returns 0 — lack of ring space never surfaces as an error. -/
theorem xmit_return_value_spec (env : XmitEnv) (m : TxPkt) :
    ((txq_xmit env m).ret = 0 ∨ (txq_xmit env m).ret = EINVAL) ∧
    ((txq_xmit env m).ret = EINVAL ↔
      (env.pending = false ∧ env.lockOk = true ∧ m.csum_flags ≠ 0 ∧
       offload env.tso_ecn m zeroNetHdr = none)) ∧
    ((env.pending = true ∨ env.lockOk = false) →
      (txq_xmit env m).ret = 0 ∧ (txq_xmit env m).pushedCpu = true) ∧
    (env.addBufOk = false →
      (m.csum_flags = 0 ∨ (offload env.tso_ecn m zeroNetHdr).isSome = true) →
      (txq_xmit env m).ret = 0 ∧
      (env.pending = false → env.lockOk = true →
        (txq_xmit env m).pushedCpu = true)) := by
  obtain ⟨p, l, e, a, pa⟩ := env
  by_cases hc : m.csum_flags = 0
  · cases p <;> cases l <;> cases a <;>
      simp [txq_xmit, try_xmit_one_locked, hc, EINVAL, ENOBUFS]
  · rcases ho : offload e m zeroNetHdr with _ | r <;>
      cases p <;> cases l <;> cases a <;>
      simp [txq_xmit, try_xmit_one_locked, hc, ho, EINVAL, ENOBUFS]

/-- C2 counterexample: on the fast path a packet that offload
preparation rejects makes txq::xmit return EINVAL, which is nonzero —
the upper layer does observe the failure through the return value,
contrary to the claim that success is returned. -/
theorem xmit_malformed_cex :
    (txq_xmit ⟨false, true, false, true, false⟩
      ⟨100, 100, 0x22, 16, 1448, 0x0800, 0, 6, 5, 5, 0x90⟩).ret = EINVAL ∧
    (txq_xmit ⟨false, true, false, true, false⟩
      ⟨100, 100, 0x22, 16, 1448, 0x0800, 0, 6, 5, 5, 0x90⟩).freed = true ∧
    (txq_xmit ⟨false, true, false, true, false⟩
      ⟨100, 100, 0x22, 16, 1448, 0x0800, 0, 6, 5, 5, 0x90⟩).txErrInc = 1 ∧
    EINVAL ≠ 0 := by decide

/-- C2 (amended): a packet found malformed during offload preparation
on the fast transmit path is dropped (freed), tx_err is incremented,
and txq::xmit returns EINVAL to the upper layer. -/
theorem xmit_malformed_spec (env : XmitEnv) (m : TxPkt)
    (hp : env.pending = false) (hl : env.lockOk = true)
    (hc : m.csum_flags ≠ 0)
    (ho : offload env.tso_ecn m zeroNetHdr = none) :
    (txq_xmit env m).ret = EINVAL ∧ (txq_xmit env m).freed = true ∧
    (txq_xmit env m).txErrInc = 1 := by
  obtain ⟨p, l, e, a, pa⟩ := env
  simp only at hp hl ho
  subst hp; subst hl
  cases a <;> simp [txq_xmit, try_xmit_one_locked, hc, ho, EINVAL, ENOBUFS]

/-- Absorption of a bit pattern just or-ed in: (a ||| b) &&& b = b. -/
theorem land_lor_right (a b : Nat) : Nat.land (Nat.lor a b) b = b := by
  have h : (a ||| b) &&& b = b := by
    apply Nat.eq_of_testBit_eq
    intro i
    rw [Nat.testBit_and, Nat.testBit_or]
    cases a.testBit i <;> cases b.testBit i <;> rfl
  exact h

/-- Reduction of offload to its IPv4 case when the outer Ethernet type
is IPv4 and the Ethernet header is already contiguous. -/
theorem offload_ip_reduce (e : Bool) (m : TxPkt) (h0 : NetHdr)
    (hip : m.eth_type = ETHERTYPE_IP)
    (hl : sizeof_ether_header ≤ m.mhLen) :
    offload e m h0 = offload_ipv4 e m h0 sizeof_ether_header := by
  unfold offload
  rw [if_neg (by omega : ¬ m.mhLen < sizeof_ether_header)]
  dsimp only
  rw [if_neg (by rw [hip]; decide : ¬ m.eth_type = ETHERTYPE_VLAN)]
  dsimp only
  rw [if_pos hip]

/-- Offload on a frame that is neither VLAN-tagged nor IPv4: the
switch's default case returns the packet with the header untouched. -/
theorem offload_nonip_reduce (e : Bool) (m : TxPkt) (h0 : NetHdr)
    (hv : m.eth_type ≠ ETHERTYPE_VLAN) (hip : m.eth_type ≠ ETHERTYPE_IP)
    (hl : sizeof_ether_header ≤ m.mhLen) :
    offload e m h0 = some (m, h0) := by
  unfold offload
  rw [if_neg (by omega : ¬ m.mhLen < sizeof_ether_header)]
  dsimp only
  rw [if_neg hv]
  dsimp only
  rw [if_neg hip]

/-- Offload on a VLAN-tagged frame with a contiguous VLAN header:
dispatch on the inner type. -/
theorem offload_vlan_reduce (e : Bool) (m : TxPkt) (h0 : NetHdr)
    (hv : m.eth_type = ETHERTYPE_VLAN)
    (hl : sizeof_ether_vlan_header ≤ m.mhLen) :
    offload e m h0 =
      (if m.vlan_inner_type = ETHERTYPE_IP
       then offload_ipv4 e m h0 sizeof_ether_vlan_header
       else some (m, h0)) := by
  have h14 : ¬ m.mhLen < sizeof_ether_header := by
    simp only [sizeof_ether_header, sizeof_ether_vlan_header] at hl ⊢
    omega
  unfold offload
  rw [if_neg h14]
  dsimp only
  rw [if_pos hv]
  rw [if_neg (by omega : ¬ m.mhLen < sizeof_ether_vlan_header)]

/-- Evaluation of the IPv4 offload case when the IP header is already
contiguous. -/
theorem offload_ipv4_eval (e : Bool) (m : TxPkt) (h0 : NetHdr)
    (off : Nat) (hl : off + sizeof_ip ≤ m.mhLen) :
    offload_ipv4 e m h0 off =
      (let hdr1 :=
        if Nat.land m.csum_flags VIRTIO_NET_CSUM_OFFLOAD ≠ 0 then
          { h0 with
            flags := Nat.lor h0.flags VIRTIO_NET_HDR_F_NEEDS_CSUM,
            csum_start := (off + m.ip_hl * 4) % 65536,
            csum_offset := m.csum_data % 65536 }
        else h0
       if Nat.land m.csum_flags CSUM_TSO ≠ 0 then
         offload_tso e m hdr1 (off + m.ip_hl * 4) VIRTIO_NET_HDR_GSO_TCPV4
       else some (m, hdr1)) := by
  unfold offload_ipv4
  rw [if_neg (by omega : ¬ m.mhLen < off + sizeof_ip)]

/-- Evaluation of the TSO tail on a TCP packet with a contiguous TCP
header and TH_CWR set: the ECN policy decides. -/
theorem offload_tso_cwr_eval (e : Bool) (m : TxPkt) (h1 : NetHdr)
    (cs gt : Nat) (htcp : m.ip_p = IPPROTO_TCP)
    (hl : cs + sizeof_tcphdr ≤ m.mhLen)
    (hcwr : Nat.land m.th_flags TH_CWR ≠ 0) :
    offload_tso e m h1 cs gt =
      (if e = false then none
       else some (m,
        { flags := Nat.lor h1.flags VIRTIO_NET_HDR_GSO_ECN,
          gso_type := gt,
          hdr_len := (cs + m.th_off * 4) % 65536,
          gso_size := m.tso_segsz % 65536,
          csum_start := h1.csum_start,
          csum_offset := h1.csum_offset })) := by
  unfold offload_tso
  rw [if_neg (by simp [htcp] : ¬ m.ip_p ≠ IPPROTO_TCP)]
  rw [if_neg (by omega : ¬ m.mhLen < cs + sizeof_tcphdr)]
  simp [hcwr]

/-- C6: a TSO packet (CSUM_TSO set) over IPv4/TCP whose TCP header has
TH_CWR set is dropped by offload when the ECN feature is off — and
try_xmit_one_locked then counts a tx_err and reports EINVAL — while
with the ECN feature on it is accepted with the 0x80 ECN bit set in the
net header. -/
theorem offload_ecn_policy (m : TxPkt)
    (hip : m.eth_type = ETHERTYPE_IP)
    (hlen1 : sizeof_ether_header + sizeof_ip ≤ m.mhLen)
    (hlen2 : sizeof_ether_header + m.ip_hl * 4 + sizeof_tcphdr ≤ m.mhLen)
    (htso : Nat.land m.csum_flags CSUM_TSO ≠ 0)
    (htcp : m.ip_p = IPPROTO_TCP)
    (hcwr : Nat.land m.th_flags TH_CWR ≠ 0) :
    (offload false m zeroNetHdr = none ∧
     try_xmit_one_locked false true m = (EINVAL, 1, none)) ∧
    (∃ r, offload true m zeroNetHdr = some r ∧
      Nat.land r.2.flags VIRTIO_NET_HDR_GSO_ECN = VIRTIO_NET_HDR_GSO_ECN) := by
  have hc : m.csum_flags ≠ 0 := by
    intro h
    rw [h] at htso
    exact htso (by decide)
  have hl14 : sizeof_ether_header ≤ m.mhLen := by
    simp [sizeof_ether_header, sizeof_ip] at hlen1 ⊢
    omega
  have heval : ∀ e : Bool, offload e m zeroNetHdr =
      (if e = false then none
       else some (m,
        { flags := Nat.lor
            (if Nat.land m.csum_flags VIRTIO_NET_CSUM_OFFLOAD ≠ 0 then
              Nat.lor zeroNetHdr.flags VIRTIO_NET_HDR_F_NEEDS_CSUM
             else zeroNetHdr.flags) VIRTIO_NET_HDR_GSO_ECN,
          gso_type := VIRTIO_NET_HDR_GSO_TCPV4,
          hdr_len := (sizeof_ether_header + m.ip_hl * 4 + m.th_off * 4) % 65536,
          gso_size := m.tso_segsz % 65536,
          csum_start :=
            (if Nat.land m.csum_flags VIRTIO_NET_CSUM_OFFLOAD ≠ 0 then
              (sizeof_ether_header + m.ip_hl * 4) % 65536
             else zeroNetHdr.csum_start),
          csum_offset :=
            (if Nat.land m.csum_flags VIRTIO_NET_CSUM_OFFLOAD ≠ 0 then
              m.csum_data % 65536
             else zeroNetHdr.csum_offset) })) := by
    intro e
    rw [offload_ip_reduce e m zeroNetHdr hip hl14]
    rw [offload_ipv4_eval e m zeroNetHdr sizeof_ether_header hlen1]
    dsimp only
    rw [if_pos htso]
    rw [offload_tso_cwr_eval e m _ _ _ htcp (by omega) hcwr]
    by_cases hoffl : Nat.land m.csum_flags VIRTIO_NET_CSUM_OFFLOAD ≠ 0
    · rw [if_pos hoffl, if_pos hoffl, if_pos hoffl, if_pos hoffl]
    · rw [if_neg hoffl, if_neg hoffl, if_neg hoffl, if_neg hoffl]
  constructor
  · constructor
    · rw [heval false]; simp
    · unfold try_xmit_one_locked
      rw [if_pos hc, heval false]
      simp
  · have h2 := heval true
    rw [if_neg (by decide : ¬ (true = false))] at h2
    exact ⟨_, h2, land_lor_right _ _⟩

/-- C6 witness: the ECN policy at a concrete IPv4/TCP TSO packet with
TH_CWR set. -/
theorem offload_ecn_policy_witness :
    ((offload false ⟨100, 100, 0x22, 16, 1448, 0x0800, 0, 6, 5, 5, 0x90⟩
        zeroNetHdr = none ∧
      try_xmit_one_locked false true
        ⟨100, 100, 0x22, 16, 1448, 0x0800, 0, 6, 5, 5, 0x90⟩ =
        (EINVAL, 1, none)) ∧
     (∃ r, offload true ⟨100, 100, 0x22, 16, 1448, 0x0800, 0, 6, 5, 5, 0x90⟩
        zeroNetHdr = some r ∧
       Nat.land r.2.flags VIRTIO_NET_HDR_GSO_ECN = VIRTIO_NET_HDR_GSO_ECN)) :=
  offload_ecn_policy ⟨100, 100, 0x22, 16, 1448, 0x0800, 0, 6, 5, 5, 0x90⟩
    (by decide) (by decide) (by decide) (by decide) (by decide) (by decide)

/-- C7 counterexample: a non-IPv4 packet (Ethernet type 0x0806) whose
csum_flags request checksum offload (CSUM_UDP set) is returned by
offload with the net header completely untouched: NEEDS_CSUM is not
set, contrary to the claim that checksum offload is still applied. -/
theorem offload_non_ip_no_csum_cex :
    offload true ⟨60, 60, 4, 6, 0, 0x0806, 0, 17, 5, 5, 0⟩ zeroNetHdr =
      some (⟨60, 60, 4, 6, 0, 0x0806, 0, 17, 5, 5, 0⟩, zeroNetHdr) ∧
    Nat.land 4 VIRTIO_NET_CSUM_OFFLOAD ≠ 0 ∧
    Nat.land zeroNetHdr.flags VIRTIO_NET_HDR_F_NEEDS_CSUM = 0 ∧
    zeroNetHdr.csum_start = 0 ∧ zeroNetHdr.csum_offset = 0 := by decide

/-- C7 (amended): for packets with non-zero checksum flags, offload
handles the non-TSO-able cases as follows: a frame whose Ethernet type
(after optionally unwrapping one VLAN tag) is not IPv4 is returned
successfully with the net header completely untouched — neither the
TSO fields nor the checksum-offload fields are set; an IPv4 frame
whose IP protocol is not TCP while TSO is requested is returned
successfully with the TSO fields (gso_type, hdr_len, gso_size) left
clear and, since checksum offload is requested, NEEDS_CSUM set with
csum_start and csum_offset populated. -/
theorem offload_csum_only_spec :
    (∀ (e : Bool) (m : TxPkt) (h0 : NetHdr),
      m.eth_type ≠ ETHERTYPE_VLAN → m.eth_type ≠ ETHERTYPE_IP →
      sizeof_ether_header ≤ m.mhLen →
      offload e m h0 = some (m, h0)) ∧
    (∀ (e : Bool) (m : TxPkt) (h0 : NetHdr),
      m.eth_type = ETHERTYPE_VLAN → m.vlan_inner_type ≠ ETHERTYPE_IP →
      sizeof_ether_vlan_header ≤ m.mhLen →
      offload e m h0 = some (m, h0)) ∧
    (∀ (e : Bool) (m : TxPkt),
      m.eth_type = ETHERTYPE_IP →
      sizeof_ether_header + sizeof_ip ≤ m.mhLen →
      Nat.land m.csum_flags CSUM_TSO ≠ 0 →
      Nat.land m.csum_flags VIRTIO_NET_CSUM_OFFLOAD ≠ 0 →
      m.ip_p ≠ IPPROTO_TCP →
      offload e m zeroNetHdr = some (m,
        { flags := VIRTIO_NET_HDR_F_NEEDS_CSUM, gso_type := 0, hdr_len := 0,
          gso_size := 0,
          csum_start := (sizeof_ether_header + m.ip_hl * 4) % 65536,
          csum_offset := m.csum_data % 65536 })) := by
  refine ⟨?_, ?_, ?_⟩
  · intro e m h0 hv hip hl
    exact offload_nonip_reduce e m h0 hv hip hl
  · intro e m h0 hv hip hl
    rw [offload_vlan_reduce e m h0 hv hl]
    rw [if_neg hip]
  · intro e m hip hl htso hoffl hntcp
    have hl14 : sizeof_ether_header ≤ m.mhLen := by
      simp only [sizeof_ether_header, sizeof_ip] at hl ⊢
      omega
    rw [offload_ip_reduce e m zeroNetHdr hip hl14]
    rw [offload_ipv4_eval e m zeroNetHdr sizeof_ether_header hl]
    dsimp only
    rw [if_pos hoffl, if_pos htso]
    unfold offload_tso
    rw [if_pos hntcp]
    rfl

/-- Characterization of bad_rx_csum's boolean result: false exactly on
structPass. -/
theorem bad_rx_csum_false_iff (m : Mbuf) (hdr : NetHdr) :
    (bad_rx_csum m hdr).1 = false ↔ structPass m hdr := by
  unfold bad_rx_csum structPass
  simp only [offsetof_uh_sum, offsetof_th_sum]
  split_ifs with h1 h2 h3 h4 h5 h6 h7
  · exact iff_of_false (by simp) (fun h => by omega)
  · exact iff_of_false (by simp) (fun h => by omega)
  · exact iff_of_false (by simp) (fun h => h3 h.2.2.1)
  · refine iff_of_false (by simp) (fun h => ?_)
    rcases h.2.2.2 with ⟨_, hl⟩ | h16
    · omega
    · omega
  · exact iff_of_true rfl
      ⟨by omega, by omega, not_not.mp h3, Or.inl ⟨h4, by omega⟩⟩
  · exact iff_of_true rfl
      ⟨by omega, by omega, not_not.mp h3, Or.inl ⟨h4, by omega⟩⟩
  · exact iff_of_true rfl
      ⟨by omega, by omega, not_not.mp h3, Or.inr h7⟩
  · refine iff_of_false (by simp) (fun h => ?_)
    rcases h.2.2.2 with ⟨h6', _⟩ | h16'
    · exact h4 h6'
    · exact h7 h16'

/-- On structPass frames that are not the zero-UDP-checksum case, the
returned mbuf is the marked one. -/
theorem bad_rx_csum_mark (m : Mbuf) (hdr : NetHdr) (hp : structPass m hdr)
    (hnz : ¬(hdr.csum_offset = offsetof_uh_sum ∧
             readBe16 m.data (hdr.csum_start + offsetof_uh_sum) = 0)) :
    (bad_rx_csum m hdr).2 = mark_csum_ok m := by
  obtain ⟨a, b, c, d⟩ := hp
  unfold bad_rx_csum
  dsimp only
  rw [if_neg (by omega), if_neg (by omega), if_neg (by simp [c])]
  rcases d with ⟨h6, hlen⟩ | h16
  · rw [if_pos h6, if_neg (by omega)]
    have hz : ¬ readBe16 m.data (hdr.csum_start + offsetof_uh_sum) = 0 :=
      fun hz => hnz ⟨h6, hz⟩
    rw [if_neg hz]
  · by_cases h6 : hdr.csum_offset = offsetof_uh_sum
    · exfalso
      rw [h6] at h16
      simp [offsetof_uh_sum, offsetof_th_sum] at h16
    · rw [if_neg h6, if_pos h16]

/-- On the zero-UDP-checksum case the returned mbuf is unchanged: the
early return fires before the marking code. -/
theorem bad_rx_csum_zero_udp (m : Mbuf) (hdr : NetHdr)
    (hp : structPass m hdr) (h6 : hdr.csum_offset = offsetof_uh_sum)
    (hz : readBe16 m.data (hdr.csum_start + offsetof_uh_sum) = 0) :
    (bad_rx_csum m hdr).2 = m := by
  obtain ⟨a, b, c, d⟩ := hp
  have hlen : hdr.csum_start + sizeof_udphdr ≤ m.mhLen := by
    rcases d with ⟨_, hl⟩ | h16
    · exact hl
    · exfalso
      rw [h6] at h16
      simp [offsetof_uh_sum, offsetof_th_sum] at h16
  unfold bad_rx_csum
  dsimp only
  rw [if_neg (by omega), if_neg (by omega), if_neg (by simp [c]),
    if_pos h6, if_neg (by omega), if_pos hz]

/-- C4 counterexample: an IPv4 frame with csum_offset at the TCP
checksum field and mh_len = 50 = csum_start + 16 is accepted
(bad_rx_csum returns false) although its length does not exceed
csum_start + sizeof(tcphdr) = 54, so the claim's only-if condition is
violated. -/
theorem bad_rx_csum_tcp_short_cex :
    (bad_rx_csum ⟨50, fun i => if i = 12 then 8 else 0, 0, 0⟩
      ⟨1, 0, 0, 0, 34, 16⟩).1 = false ∧
    ¬ ((34 : Nat) + sizeof_tcphdr < 50) := by decide

/-- C4 (amended): bad_rx_csum returns false exactly when, after
optionally unwrapping one VLAN tag, the Ethernet type is IPv4,
csum_start + csum_offset lies between sizeof(ether)+sizeof(ip) = 34 and
the frame length, and either csum_offset is the UDP checksum offset (6)
with frame length at least csum_start + sizeof(udphdr), or csum_offset
is the TCP checksum offset (16) — with no further length requirement
beyond csum_start + 16 ≤ length; it returns true for all other
frames. -/
theorem bad_rx_csum_false_characterization (m : Mbuf) (hdr : NetHdr) :
    (bad_rx_csum m hdr).1 = false ↔ structPass m hdr :=
  bad_rx_csum_false_iff m hdr

/-- C5 counterexample: a NEEDS_CSUM IPv4/UDP frame whose UDP checksum
field is zero is accepted (bad_rx_csum false, rx_csum_err not
incremented) but it is delivered WITHOUT the CSUM_DATA_VALID /
CSUM_PSEUDO_HDR hints — the early return for the zero UDP checksum
fires before the marking code, contradicting the claim's
delivered-with-DATA_VALID conjunct. -/
theorem udp_zero_csum_no_hint_cex :
    (bad_rx_csum ⟨42, fun i => if i = 12 then 8 else 0, 0, 0⟩
      ⟨1, 0, 0, 0, 34, 6⟩).1 = false ∧
    (receiver_csum_step true ⟨42, fun i => if i = 12 then 8 else 0, 0, 0⟩
      ⟨1, 0, 0, 0, 34, 6⟩).2.2 = 0 ∧
    Nat.land (receiver_csum_step true
        ⟨42, fun i => if i = 12 then 8 else 0, 0, 0⟩
        ⟨1, 0, 0, 0, 34, 6⟩).1.csumFlags
      (Nat.lor CSUM_DATA_VALID CSUM_PSEUDO_HDR) = 0 := by decide

/-- C5 (amended): a received IPv4/UDP frame with NEEDS_CSUM, csum_offset
at the UDP checksum field and a zero UDP checksum is treated as valid —
bad_rx_csum returns false, rx_csum (not rx_csum_err) is incremented —
but it is handed to the upper layer with its checksum flags left clear:
the DATA_VALID / checksum-valid hints are not set in this case. -/
theorem udp_zero_csum_spec (m : Mbuf) (hdr : NetHdr)
    (hf : Nat.land hdr.flags VIRTIO_NET_HDR_F_NEEDS_CSUM ≠ 0)
    (h6 : hdr.csum_offset = offsetof_uh_sum)
    (hcs : 28 ≤ hdr.csum_start)
    (hlen : hdr.csum_start + sizeof_udphdr ≤ m.mhLen)
    (hip : eth_type_of m = ETHERTYPE_IP)
    (hz : readBe16 m.data (hdr.csum_start + offsetof_uh_sum) = 0) :
    (bad_rx_csum { m with csumFlags := 0 } hdr).1 = false ∧
    receiver_csum_step true m hdr = ({ m with csumFlags := 0 }, 1, 0) := by
  have hp : structPass { m with csumFlags := 0 } hdr := by
    refine ⟨?_, ?_, hip, Or.inl ⟨h6, hlen⟩⟩
    · rw [h6]
      simp only [sizeof_ether_header, sizeof_ip, offsetof_uh_sum]
      omega
    · show hdr.csum_start + hdr.csum_offset ≤ m.mhLen
      rw [h6]
      simp only [offsetof_uh_sum, sizeof_udphdr] at hlen ⊢
      omega
  have hfalse : (bad_rx_csum { m with csumFlags := 0 } hdr).1 = false :=
    (bad_rx_csum_false_iff _ _).mpr hp
  have hsnd : (bad_rx_csum { m with csumFlags := 0 } hdr).2 =
      { m with csumFlags := 0 } :=
    bad_rx_csum_zero_udp _ _ hp h6 hz
  refine ⟨hfalse, ?_⟩
  unfold receiver_csum_step
  rw [if_pos ⟨rfl, hf⟩]
  dsimp only
  rw [hfalse]
  simp only [Bool.false_eq_true, if_false]
  rw [hsnd]

/-- C5 witness: the amended statement at a concrete zero-UDP-checksum
frame. -/
theorem udp_zero_csum_spec_witness :
    (bad_rx_csum ⟨42, fun i => if i = 12 then 8 else 0, 0, 99⟩
      ⟨1, 0, 0, 0, 34, 6⟩).1 = false ∧
    receiver_csum_step true ⟨42, fun i => if i = 12 then 8 else 0, 1024, 99⟩
      ⟨1, 0, 0, 0, 34, 6⟩ =
      (⟨42, fun i => if i = 12 then 8 else 0, 0, 99⟩, 1, 0) :=
  udp_zero_csum_spec ⟨42, fun i => if i = 12 then 8 else 0, 1024, 99⟩
    ⟨1, 0, 0, 0, 34, 6⟩
    (by decide) (by decide) (by decide) (by decide) (by decide) (by decide)

/-- C10 counterexample: a structurally valid VLAN/IPv4/UDP frame with a
zero UDP checksum passes all structural checks and bad_rx_csum returns
false for it, yet the returned mbuf is NOT marked: CSUM_DATA_VALID is
absent and csum_data is not 0xFFFF, contradicting the claim that every
structurally passing frame is unconditionally marked checksum-valid. -/
theorem bad_rx_csum_zero_udp_unmarked_cex :
    structPass
      ⟨46, fun i => if i = 12 then 0x81 else if i = 16 then 8 else 0, 0, 0⟩
      ⟨1, 0, 0, 0, 38, 6⟩ ∧
    (bad_rx_csum
      ⟨46, fun i => if i = 12 then 0x81 else if i = 16 then 8 else 0, 0, 0⟩
      ⟨1, 0, 0, 0, 38, 6⟩).1 = false ∧
    Nat.land (bad_rx_csum
      ⟨46, fun i => if i = 12 then 0x81 else if i = 16 then 8 else 0, 0, 0⟩
      ⟨1, 0, 0, 0, 38, 6⟩).2.csumFlags CSUM_DATA_VALID = 0 ∧
    (bad_rx_csum
      ⟨46, fun i => if i = 12 then 0x81 else if i = 16 then 8 else 0, 0, 0⟩
      ⟨1, 0, 0, 0, 38, 6⟩).2.csumData ≠ 0xFFFF := by decide

/-- C10 (amended): bad_rx_csum never reads the frame's checksum bytes
except to test whether the UDP checksum field is zero — its result
depends on the frame only through the length, the two Ethernet-type
words and that zero test; every frame passing the structural checks
yields false, and is marked CSUM_DATA_VALID|CSUM_PSEUDO_HDR with
csum_data = 0xFFFF except in the zero-UDP-checksum case, where the mbuf
is returned unchanged; accordingly rx_csum_err is never incremented for
a structurally passing frame, regardless of its checksum bytes. -/
theorem bad_rx_csum_structural_spec :
    (∀ (hdr : NetHdr) (m₁ m₂ : Mbuf),
      m₁.mhLen = m₂.mhLen → m₁.csumFlags = m₂.csumFlags →
      m₁.csumData = m₂.csumData →
      readBe16 m₁.data 12 = readBe16 m₂.data 12 →
      readBe16 m₁.data 16 = readBe16 m₂.data 16 →
      (readBe16 m₁.data (hdr.csum_start + offsetof_uh_sum) = 0 ↔
       readBe16 m₂.data (hdr.csum_start + offsetof_uh_sum) = 0) →
      (bad_rx_csum m₁ hdr).1 = (bad_rx_csum m₂ hdr).1 ∧
      (bad_rx_csum m₁ hdr).2.csumFlags = (bad_rx_csum m₂ hdr).2.csumFlags ∧
      (bad_rx_csum m₁ hdr).2.csumData = (bad_rx_csum m₂ hdr).2.csumData) ∧
    (∀ (m : Mbuf) (hdr : NetHdr), structPass m hdr →
      (bad_rx_csum m hdr).1 = false) ∧
    (∀ (m : Mbuf) (hdr : NetHdr), structPass m hdr →
      ¬(hdr.csum_offset = offsetof_uh_sum ∧
        readBe16 m.data (hdr.csum_start + offsetof_uh_sum) = 0) →
      (bad_rx_csum m hdr).2.csumFlags =
        Nat.lor m.csumFlags (Nat.lor CSUM_DATA_VALID CSUM_PSEUDO_HDR) ∧
      (bad_rx_csum m hdr).2.csumData = 0xFFFF) ∧
    (∀ (m : Mbuf) (hdr : NetHdr), structPass m hdr →
      hdr.csum_offset = offsetof_uh_sum →
      readBe16 m.data (hdr.csum_start + offsetof_uh_sum) = 0 →
      (bad_rx_csum m hdr).2 = m) ∧
    (∀ (m : Mbuf) (hdr : NetHdr), structPass m hdr →
      (receiver_csum_step true m hdr).2.2 = 0) := by
  refine ⟨?_, ?_, ?_, ?_, ?_⟩
  · intro hdr m₁ m₂ hL hF hD h12 h16 hZ
    have hET : eth_type_of m₁ = eth_type_of m₂ := by
      unfold eth_type_of
      rw [h12, h16]
    unfold bad_rx_csum
    dsimp only
    rw [hL, hET]
    by_cases hz1 : readBe16 m₁.data (hdr.csum_start + offsetof_uh_sum) = 0
    · have hz2 : readBe16 m₂.data (hdr.csum_start + offsetof_uh_sum) = 0 :=
        hZ.mp hz1
      rw [if_pos hz1, if_pos hz2]
      split_ifs
      all_goals first
      | exact ⟨rfl, hF, hD⟩
      | exact ⟨rfl, by simp [mark_csum_ok, hF], by simp [mark_csum_ok]⟩
    · have hz2 : ¬ readBe16 m₂.data (hdr.csum_start + offsetof_uh_sum) = 0 :=
        fun h => hz1 (hZ.mpr h)
      rw [if_neg hz1, if_neg hz2]
      split_ifs
      all_goals first
      | exact ⟨rfl, hF, hD⟩
      | exact ⟨rfl, by simp [mark_csum_ok, hF], by simp [mark_csum_ok]⟩
  · intro m hdr hp
    exact (bad_rx_csum_false_iff m hdr).mpr hp
  · intro m hdr hp hnz
    rw [bad_rx_csum_mark m hdr hp hnz]
    exact ⟨rfl, rfl⟩
  · intro m hdr hp h6 hz
    exact bad_rx_csum_zero_udp m hdr hp h6 hz
  · intro m hdr hp
    unfold receiver_csum_step
    by_cases hf : Nat.land hdr.flags VIRTIO_NET_HDR_F_NEEDS_CSUM ≠ 0
    · rw [if_pos ⟨rfl, hf⟩]
      dsimp only
      have hp0 : structPass { m with csumFlags := 0 } hdr := hp
      rw [(bad_rx_csum_false_iff _ _).mpr hp0]
      simp
    · rw [if_neg (fun hc => hf hc.2)]

/-- runsBounded distributes over concatenation, threading the current
run length through runCount. -/
theorem runsBounded_append (t : Nat) (a b : List TxEv) (k : Nat) :
    runsBounded t (a ++ b) k =
      (runsBounded t a k && runsBounded t b (runCount a k)) := by
  induction a generalizing k with
  | nil => simp [runsBounded, runCount]
  | cons e es ih =>
    cases e
    · simp [runsBounded, runCount, ih, Bool.and_assoc]
    · simp [runsBounded, runCount, ih]

/-- The inner dispatcher drain keeps every kick-free run at or below the
threshold, starting from any counter strictly below it. -/
theorem drainLoop_bounded (t : Nat) (ps : List Bool) (k : Nat)
    (hk : k < t) : runsBounded t (drainLoop t ps k) k = true := by
  induction ps generalizing k with
  | nil =>
    by_cases h : k = 0
    · simp [drainLoop, kick_model, h, runsBounded]
    · simp [drainLoop, kick_model, h, runsBounded]
  | cons rf ps ih =>
    have h0 : (0 : Nat) < t := by omega
    cases rf
    · have hx : xmit_one_locked_model false k = ([TxEv.enq], k + 1) := by
        simp [xmit_one_locked_model]
      by_cases hth : t ≤ k + 1
      · simp only [drainLoop, hx, if_pos hth]
        simp [kick_model, runsBounded, ih 0 h0]
        all_goals omega
      · simp only [drainLoop, hx, if_neg hth]
        simp [runsBounded, ih (k + 1) (by omega : k + 1 < t)]
        all_goals omega
    · by_cases hk0 : k = 0
      · subst hk0
        have hx : xmit_one_locked_model true 0 = ([TxEv.enq], 1) := by
          simp [xmit_one_locked_model, kick_model]
        by_cases hth : t ≤ 1
        · simp only [drainLoop, hx, if_pos hth]
          simp [kick_model, runsBounded, ih 0 h0]
          all_goals omega
        · simp only [drainLoop, hx, if_neg hth]
          simp [runsBounded, ih 1 (by omega : 1 < t)]
          all_goals omega
      · have hx : xmit_one_locked_model true k = ([TxEv.kick, TxEv.enq], 1) := by
          simp [xmit_one_locked_model, kick_model, hk0]
        by_cases hth : t ≤ 1
        · simp only [drainLoop, hx, if_pos hth]
          simp [kick_model, runsBounded, ih 0 h0]
          all_goals omega
        · simp only [drainLoop, hx, if_neg hth]
          simp [runsBounded, ih 1 (by omega : 1 < t)]
          all_goals omega

/-- C8 counterexample: with a hardware ring of capacity 1 the packet
popped at the top of the dispatcher loop is sent with no threshold
check after it, so the round (top pop, then one drained packet) puts 2
packets on the ring between doorbells — more than the ring capacity the
claim allows. -/
theorem doorbell_bound_thresh_one_cex :
    dispatchRound 1 (some false) [false] 0 =
      [TxEv.enq, TxEv.enq, TxEv.kick] ∧
    runsBounded 1 (dispatchRound 1 (some false) [false] 0) 0 = false := by
  decide

/-- C8 (amended): provided the hardware ring holds at least 2
descriptors, at most hardware-ring-capacity packets are enqueued
between two successive doorbells of a dispatcher round: pkts_to_kick is
checked against the kick threshold (the ring size) after each packet of
the inner drain (the single packet popped at the top of the loop is not
followed by a check), a doorbell is issued whenever the counter reaches
the threshold, once more after the merger drains, and additionally by
xmit_one_locked itself whenever the ring is full. -/
theorem doorbell_bound_spec (thresh : Nat) (first : Option Bool)
    (ps : List Bool) (hth : 2 ≤ thresh) :
    runsBounded thresh (dispatchRound thresh first ps 0) 0 = true := by
  cases first with
  | none => exact drainLoop_bounded thresh ps 0 (by omega)
  | some rf =>
    have hs : xmit_one_locked_model rf 0 = ([TxEv.enq], 1) := by
      cases rf <;> simp [xmit_one_locked_model, kick_model]
    unfold dispatchRound
    dsimp only
    rw [hs]
    simp [runsBounded, drainLoop_bounded thresh ps 1 (by omega : 1 < thresh)]
    omega

/-- C8 witness: the doorbell bound on a concrete round with threshold 4,
a top-of-loop packet that found the ring full, and five more packets. -/
theorem doorbell_bound_spec_witness :
    runsBounded 4 (dispatchRound 4 (some true)
      [false, true, false, false, false] 0) 0 = true :=
  doorbell_bound_spec 4 (some true) [false, true, false, false, false]
    (by decide)

namespace RingSpsc

variable {T : Type}

/-- push fails exactly when the occupancy has reached the capacity. -/
theorem push_fst (r : RingSpsc T) (x : T) :
    (push r x).1 = false ↔ r.maxSize ≤ size r := by
  unfold push
  split_ifs with h <;> simp [h]

/-- A failed push leaves the ring unchanged. -/
theorem push_snd_full (r : RingSpsc T) (x : T) (h : r.maxSize ≤ size r) :
    (push r x).2 = r := by
  unfold push
  rw [if_pos h]

/-- pop fails exactly on an empty ring. -/
theorem pop_fst_none (r : RingSpsc T) : (pop r).1 = none ↔ size r = 0 := by
  unfold pop
  split_ifs with h <;> simp [h]

/-- A failed pop leaves the ring unchanged. -/
theorem pop_snd_empty (r : RingSpsc T) (h : size r = 0) : (pop r).2 = r := by
  unfold pop
  rw [if_pos h]

/-- A successful push increments the occupancy by one, through the
32-bit wrap of the producer counter. -/
theorem size_push (r : RingSpsc T) (x : T) (hbg : r.bg < U32)
    (hen : r.en < U32) (hms : r.maxSize < U32)
    (h : ¬ r.maxSize ≤ size r) : size (push r x).2 = size r + 1 := by
  unfold push
  rw [if_neg h]
  show usub ((r.en + 1) % U32) r.bg = size r + 1
  simp only [size, usub, U32] at *
  omega

/-- A successful pop decrements the occupancy by one, through the
32-bit wrap of the consumer counter. -/
theorem size_pop (r : RingSpsc T) (hbg : r.bg < U32) (hen : r.en < U32)
    (h : ¬ size r = 0) : size (pop r).2 = size r - 1 := by
  unfold pop
  rw [if_neg h]
  show usub r.en ((r.bg + 1) % U32) = size r - 1
  simp only [size, usub, U32] at *
  omega

/-- Reduction mod U32 preserves residues mod any divisor of U32 (the
power-of-two capacity divides the counter modulus, so the slot index
computed from the wrapped counter is the untruncated one). -/
theorem mod_u32_modeq (m x : Nat) (h : m ∣ U32) : x % U32 ≡ x [MOD m] :=
  Nat.ModEq.of_dvd h (Nat.mod_modEq x U32)

/-- The producer's slot is the one `size r` positions past the
consumer's. -/
theorem en_slot (r : RingSpsc T) (hdvd : r.maxSize ∣ U32)
    (hbg : r.bg < U32) :
    r.en % r.maxSize = (r.bg + size r) % r.maxSize := by
  have h1 : size r ≡ r.en + U32 - r.bg [MOD r.maxSize] := by
    unfold size usub
    exact Nat.ModEq.of_dvd hdvd (Nat.mod_modEq _ _)
  have h2 : (r.bg + size r) % r.maxSize =
      (r.bg + (r.en + U32 - r.bg)) % r.maxSize := Nat.ModEq.add_left _ h1
  have h3 : r.bg + (r.en + U32 - r.bg) = r.en + U32 := by
    simp only [U32] at hbg ⊢
    omega
  obtain ⟨t, ht⟩ := hdvd
  rw [h2, h3, ht, Nat.add_mul_mod_self_left]

/-- The FIFO abstraction has exactly `size r` elements. -/
theorem contents_length (r : RingSpsc T) : (contents r).length = size r := by
  simp [contents]

/-- The FIFO abstraction is empty exactly when the ring is. -/
theorem contents_eq_nil_iff (r : RingSpsc T) :
    contents r = [] ↔ size r = 0 := by
  constructor
  · intro h
    have h2 := congrArg List.length h
    rw [contents_length] at h2
    simpa using h2
  · intro h
    unfold contents
    rw [h]
    rfl

/-- A successful push appends the element at the back of the FIFO
abstraction. -/
theorem push_contents (r : RingSpsc T) (x : T)
    (hbg : r.bg < U32) (hen : r.en < U32) (hms : r.maxSize < U32)
    (hdvd : r.maxSize ∣ U32) (h : ¬ r.maxSize ≤ size r) :
    contents (push r x).2 = contents r ++ [x] := by
  have hsz : size (push r x).2 = size r + 1 := size_push r x hbg hen hms h
  have hslot : r.en % r.maxSize = (r.bg + size r) % r.maxSize :=
    en_slot r hdvd hbg
  have hlt : size r < r.maxSize := not_le.mp h
  have hbg2 : (push r x).2.bg = r.bg := by
    unfold push
    rw [if_neg h]
  have hms2 : (push r x).2.maxSize = r.maxSize := by
    unfold push
    rw [if_neg h]
  have hring2 : (push r x).2.ring =
      (fun i => if i = r.en % r.maxSize then x else r.ring i) := by
    unfold push
    rw [if_neg h]
  unfold contents
  rw [hbg2, hms2, hring2, hsz, List.range_succ, List.map_append]
  congr 1
  · apply List.map_congr_left
    intro i hi
    rw [List.mem_range] at hi
    have hne : (r.bg + i) % r.maxSize ≠ r.en % r.maxSize := by
      rw [hslot]
      intro heq
      have hmod : i % r.maxSize = size r % r.maxSize :=
        Nat.ModEq.add_left_cancel' r.bg heq
      rw [Nat.mod_eq_of_lt (by omega : i < r.maxSize),
        Nat.mod_eq_of_lt hlt] at hmod
      omega
    simp [hne]
  · simp [hslot]

/-- A successful pop returns the front of the FIFO abstraction and
leaves its tail. -/
theorem pop_spec (r : RingSpsc T) (hbg : r.bg < U32) (hen : r.en < U32)
    (hdvd : r.maxSize ∣ U32) (y : T) (ys : List T)
    (hc : contents r = y :: ys) :
    (pop r).1 = some y ∧ contents (pop r).2 = ys := by
  have hlen : size r = ys.length + 1 := by
    have h2 := congrArg List.length hc
    rw [contents_length] at h2
    simpa using h2
  have hne : ¬ size r = 0 := by omega
  have hsplit : contents r =
      r.ring ((r.bg + 0) % r.maxSize) ::
        (List.range ys.length).map
          (fun i => r.ring ((r.bg + (i + 1)) % r.maxSize)) := by
    unfold contents
    rw [hlen, List.range_succ_eq_map, List.map_cons, List.map_map]
    rfl
  rw [hc] at hsplit
  injection hsplit with hy hys
  constructor
  · unfold pop
    rw [if_neg hne]
    rw [hy]
    simp
  · have hbg2 : (pop r).2.bg = (r.bg + 1) % U32 := by
      unfold pop
      rw [if_neg hne]
    have hms2 : (pop r).2.maxSize = r.maxSize := by
      unfold pop
      rw [if_neg hne]
    have hring2 : (pop r).2.ring = r.ring := by
      unfold pop
      rw [if_neg hne]
    have hsz2 : size (pop r).2 = ys.length := by
      rw [size_pop r hbg hen hne]
      omega
    unfold contents
    rw [hbg2, hms2, hring2, hsz2]
    conv_rhs => rw [hys]
    apply List.map_congr_left
    intro i hi
    have hcong : ((r.bg + 1) % U32 + i) % r.maxSize =
        (r.bg + 1 + i) % r.maxSize :=
      Nat.ModEq.add_right i (mod_u32_modeq r.maxSize (r.bg + 1) hdvd)
    rw [hcong]
    have h3 : r.bg + 1 + i = r.bg + (i + 1) := by omega
    rw [h3]

end RingSpsc

/-- C9: for the bounded SPSC ring under its well-formedness invariant,
push fails exactly when the number of elements pushed but not yet
popped (the length of the FIFO contents) equals the capacity, leaving
the ring unchanged, and otherwise appends the element; pop fails
exactly when the ring is empty, leaving it unchanged, and otherwise
removes and returns the oldest element. -/
theorem ring_spsc_spec (T : Type) (r : RingSpsc T) (x : T)
    (hInv : RingSpsc.Inv r) :
    ((RingSpsc.push r x).1 = false ↔
      (RingSpsc.contents r).length = r.maxSize) ∧
    ((RingSpsc.push r x).1 = false → (RingSpsc.push r x).2 = r) ∧
    ((RingSpsc.push r x).1 = true →
      RingSpsc.contents (RingSpsc.push r x).2 =
        RingSpsc.contents r ++ [x]) ∧
    ((RingSpsc.pop r).1 = none ↔ RingSpsc.contents r = []) ∧
    ((RingSpsc.pop r).1 = none → (RingSpsc.pop r).2 = r) ∧
    (∀ (y : T) (ys : List T), RingSpsc.contents r = y :: ys →
      (RingSpsc.pop r).1 = some y ∧
      RingSpsc.contents (RingSpsc.pop r).2 = ys) := by
  obtain ⟨hms0, hdvd, hms, hbg, hen, hcap⟩ := hInv
  refine ⟨?_, ?_, ?_, ?_, ?_, ?_⟩
  · rw [RingSpsc.push_fst, RingSpsc.contents_length]
    omega
  · intro hf
    exact RingSpsc.push_snd_full r x ((RingSpsc.push_fst r x).mp hf)
  · intro ht
    have hnot : ¬ r.maxSize ≤ RingSpsc.size r := by
      intro hle
      have hf := (RingSpsc.push_fst r x).mpr hle
      rw [hf] at ht
      exact Bool.noConfusion ht
    exact RingSpsc.push_contents r x hbg hen hms hdvd hnot
  · rw [RingSpsc.pop_fst_none, RingSpsc.contents_eq_nil_iff]
  · intro hn
    exact RingSpsc.pop_snd_empty r ((RingSpsc.pop_fst_none r).mp hn)
  · intro y ys hc
    exact RingSpsc.pop_spec r hbg hen hdvd y ys hc

/-- C9 witness: the ring specification at a concrete empty ring of
capacity 4. -/
theorem ring_spsc_spec_witness :
    ((RingSpsc.push (⟨4, fun _ => 0, 0, 0⟩ : RingSpsc Nat) 7).1 = false ↔
      (RingSpsc.contents (⟨4, fun _ => 0, 0, 0⟩ : RingSpsc Nat)).length = 4) ∧
    ((RingSpsc.push (⟨4, fun _ => 0, 0, 0⟩ : RingSpsc Nat) 7).1 = false →
      (RingSpsc.push (⟨4, fun _ => 0, 0, 0⟩ : RingSpsc Nat) 7).2 =
        (⟨4, fun _ => 0, 0, 0⟩ : RingSpsc Nat)) ∧
    ((RingSpsc.push (⟨4, fun _ => 0, 0, 0⟩ : RingSpsc Nat) 7).1 = true →
      RingSpsc.contents (RingSpsc.push (⟨4, fun _ => 0, 0, 0⟩ :
          RingSpsc Nat) 7).2 =
        RingSpsc.contents (⟨4, fun _ => 0, 0, 0⟩ : RingSpsc Nat) ++ [7]) ∧
    ((RingSpsc.pop (⟨4, fun _ => 0, 0, 0⟩ : RingSpsc Nat)).1 = none ↔
      RingSpsc.contents (⟨4, fun _ => 0, 0, 0⟩ : RingSpsc Nat) = []) ∧
    ((RingSpsc.pop (⟨4, fun _ => 0, 0, 0⟩ : RingSpsc Nat)).1 = none →
      (RingSpsc.pop (⟨4, fun _ => 0, 0, 0⟩ : RingSpsc Nat)).2 =
        (⟨4, fun _ => 0, 0, 0⟩ : RingSpsc Nat)) ∧
    (∀ (y : Nat) (ys : List Nat),
      RingSpsc.contents (⟨4, fun _ => 0, 0, 0⟩ : RingSpsc Nat) = y :: ys →
      (RingSpsc.pop (⟨4, fun _ => 0, 0, 0⟩ : RingSpsc Nat)).1 = some y ∧
      RingSpsc.contents
        (RingSpsc.pop (⟨4, fun _ => 0, 0, 0⟩ : RingSpsc Nat)).2 = ys) :=
  ring_spsc_spec Nat ⟨4, fun _ => 0, 0, 0⟩ 7
    ⟨by decide, by decide, by decide, by decide, by decide, by decide⟩

/-- C2 witness: the amended statement at a concrete TSO/CWR packet on a
host without the ECN feature. -/
theorem xmit_malformed_spec_witness :
    (txq_xmit ⟨false, true, false, false, true⟩
      ⟨60, 60, 0x20, 16, 536, 0x0800, 0, 6, 5, 5, 0x80⟩).ret = EINVAL ∧
    (txq_xmit ⟨false, true, false, false, true⟩
      ⟨60, 60, 0x20, 16, 536, 0x0800, 0, 6, 5, 5, 0x80⟩).freed = true ∧
    (txq_xmit ⟨false, true, false, false, true⟩
      ⟨60, 60, 0x20, 16, 536, 0x0800, 0, 6, 5, 5, 0x80⟩).txErrInc = 1 :=
  xmit_malformed_spec ⟨false, true, false, false, true⟩
    ⟨60, 60, 0x20, 16, 536, 0x0800, 0, 6, 5, 5, 0x80⟩
    rfl rfl (by decide) (by decide)

end OsvNet
